import Mathlib

/-!
Shallow embedding of the fractal evaluation and rendering engine of
`prachwal/mandelbrot-generator`, together with theorems settling the claims
about its specification.  JavaScript numbers are idealised as rationals `ℚ`
(the claims under study are structural / exact-arithmetic statements);
non-finite values (`NaN`, `±Infinity`) and non-number values, which only
matter for `JuliaFractal.validateConfig`, are represented explicitly by the
`JsNum` type.  `Uint8ClampedArray` is modelled by `U8Array`: a size together
with a contents function, where writes out of range are dropped and written
values are clamped to bytes, as in JavaScript.
-/

namespace Mandel

/-- A complex point `{real, imag}` (src/core: `Complex`). -/
structure Complex where
  real : ℚ
  imag : ℚ
deriving DecidableEq, Repr

/-- A JavaScript runtime value sitting in a `number`-typed field: a finite
number, a non-finite number (`NaN` or `±Infinity`, for which `isFinite` is
`false` while `typeof` is still `"number"`), or a value that is not a number
at all (`typeof v !== 'number'`). -/
inductive JsNum where
  | fin (q : ℚ)
  | nonfinite
  | notNumber
deriving DecidableEq, Repr

/-- `typeof v === 'number'` for a `JsNum`. -/
def JsNum.isTypeofNumber : JsNum → Bool
  | .fin _ => true
  | .nonfinite => true
  | .notNumber => false

/-- `isFinite(v)` for a `JsNum`. -/
def JsNum.isFiniteNum : JsNum → Bool
  | .fin _ => true
  | .nonfinite => false
  | .notNumber => false

/-- The `juliaC` value as it appears in a configuration: two `number`-typed
components that may each be non-finite or not a number. -/
structure JuliaParam where
  real : JsNum
  imag : JsNum
deriving DecidableEq, Repr

/-- `FractalConfig` (src/core/fractal-engine.ts lines 140-157).  `width`,
`height` and `maxIterations` are used as loop bounds, hence naturals;
`escapeRadius` is optional in the interface (`escapeRadius?: number`);
`juliaC` is the only algorithm-specific extra field used by the engine
(`[key: string]: any`), absent / `null` / `undefined` modelled as `none`. -/
structure FractalConfig where
  width : ℕ
  height : ℕ
  centerX : ℚ
  centerY : ℚ
  zoom : ℚ
  maxIterations : ℕ
  escapeRadius : Option ℚ
  colorPalette : String
  juliaC : Option JuliaParam
deriving DecidableEq, Repr

/-- `MandelbrotConfig` (src/types.ts): the configuration of the standalone
pipeline; here `escapeRadius` is a required field. -/
structure MandelbrotConfig where
  width : ℕ
  height : ℕ
  maxIterations : ℕ
  escapeRadius : ℚ
  zoom : ℚ
  centerX : ℚ
  centerY : ℚ
  colorPalette : String
deriving DecidableEq, Repr

/-- `FractalBounds` (src/types.ts). -/
structure FractalBounds where
  minReal : ℚ
  maxReal : ℚ
  minImaginary : ℚ
  maxImaginary : ℚ
deriving DecidableEq, Repr

/-- `Bounds` of the plugin engine (src/core/types): `{minX,maxX,minY,maxY}`. -/
structure Bounds where
  minX : ℚ
  maxX : ℚ
  minY : ℚ
  maxY : ℚ
deriving DecidableEq, Repr

/-- `calculateBounds` (src/config.ts lines 148-161). -/
def calculateBounds (config : MandelbrotConfig) : FractalBounds :=
  let aspect : ℚ := (config.width : ℚ) / (config.height : ℚ)
  let range : ℚ := 4 / config.zoom
  let realRange := range * aspect
  let imaginaryRange := range
  { minReal := config.centerX - realRange / 2
    maxReal := config.centerX + realRange / 2
    minImaginary := config.centerY - imaginaryRange / 2
    maxImaginary := config.centerY + imaginaryRange / 2 }

/-- `BaseFractal.calculateBounds` (src/core/base-fractal.ts lines 75-86). -/
def BaseFractal.calculateBounds (config : FractalConfig) : Bounds :=
  let aspect : ℚ := (config.width : ℚ) / (config.height : ℚ)
  let range : ℚ := 4 / config.zoom
  { minX := config.centerX - range * aspect / 2
    maxX := config.centerX + range * aspect / 2
    minY := config.centerY - range / 2
    maxY := config.centerY + range / 2 }

/-- `BaseFractal.screenToComplex` (src/core/base-fractal.ts lines 66-70):
`real = minX + (x/width)*(maxX-minX)`, `imag = minY + (y/height)*(maxY-minY)`
(note: the imaginary coordinate is NOT inverted here). -/
def BaseFractal.screenToComplex (x y : ℕ) (bounds : Bounds)
    (config : FractalConfig) : Complex :=
  { real := bounds.minX + ((x : ℚ) / (config.width : ℚ)) * (bounds.maxX - bounds.minX)
    imag := bounds.minY + ((y : ℚ) / (config.height : ℚ)) * (bounds.maxY - bounds.minY) }

/-- `BaseFractal.validateConfig` (src/core/base-fractal.ts lines 96-98):
returns `true` unconditionally ("Override in subclasses if needed"). -/
def BaseFractal.validateConfig (_config : FractalConfig) : Bool :=
  true

/-- `|z|²` as computed by all three iterate loops: `z.real*z.real + z.imag*z.imag`. -/
def normSq (z : Complex) : ℚ :=
  z.real * z.real + z.imag * z.imag

/-- One Mandelbrot/Julia iteration step `z ↦ z² + c`
(`newReal = z.real*z.real - z.imag*z.imag + c.real`,
`newImag = 2*z.real*z.imag + c.imag`). -/
def mandelStep (c z : Complex) : Complex :=
  { real := z.real * z.real - z.imag * z.imag + c.real
    imag := 2 * z.real * z.imag + c.imag }

/-- One Burning Ship step `z ↦ (|Re z| + i|Im z|)² + c` (src/algorithms,
`BurningShipFractal.iterate` body lines 174-177). -/
def shipStep (c z : Complex) : Complex :=
  { real := |z.real| * |z.real| - |z.imag| * |z.imag| + c.real
    imag := 2 * |z.real| * |z.imag| + c.imag }

/-- `FractalResult` (src/core/fractal-engine.ts lines 160-166); `finalZ`,
`convergenceType` and `metadata` are optional fields.  The only metadata the
built-in algorithms ever attach is `{juliaC: c}`, so metadata is modelled as
the optional Julia constant. -/
structure FractalResult where
  iterations : ℕ
  escaped : Bool
  finalZ : Option Complex
  convergenceType : Option String
  metadata : Option Complex
deriving DecidableEq, Repr

/-- The shared shape of the three `iterate` while-loops
(`while (iterations < maxIterations) { if |z|² > r² return escaped-result;
z := step z; iterations++ }` followed by the max-iterations result).  `fuel`
is `maxIterations - iterations`; `keepZ` records whether the algorithm puts
`finalZ` into its results (Mandelbrot and Julia do, Burning Ship does not);
`meta` is the metadata attached to every result (Julia only). -/
def iterLoop (step : Complex → Complex) (escR2 : ℚ) (keepZ : Bool)
    (meta : Option Complex) : ℕ → Complex → ℕ → FractalResult
  | 0, z, iterations =>
    { iterations := iterations, escaped := false
      finalZ := if keepZ then some z else none
      convergenceType := some "max_iterations", metadata := meta }
  | fuel + 1, z, iterations =>
    if normSq z > escR2 then
      { iterations := iterations, escaped := true
        finalZ := if keepZ then some z else none
        convergenceType := some "escaped", metadata := meta }
    else
      iterLoop step escR2 keepZ meta fuel (step z) (iterations + 1)

/-- `MandelbrotFractal.iterate` (src/algorithms/mandelbrot.ts lines 75-107):
`z₀ = 0`, step `z ↦ z² + point`, escape when `|z|² > r²` with
`escapeRadius = config.escapeRadius ?? 2`. -/
def MandelbrotFractal.iterate (point : Complex) (config : FractalConfig) : FractalResult :=
  let escapeRadius := config.escapeRadius.getD 2
  iterLoop (mandelStep point) (escapeRadius * escapeRadius) true none
    config.maxIterations ⟨0, 0⟩ 0

/-- The Julia constant used by `JuliaFractal.iterate`:
`config['juliaC'] || { real: -0.7269, imag: 0.1889 }`.  A present `juliaC`
with non-finite or non-number components would iterate with `NaN` in
JavaScript; that corner lies outside the rational idealisation, and no claim
depends on it (all claims use finite or absent `juliaC`). -/
def juliaConst (config : FractalConfig) : Complex :=
  match config.juliaC with
  | some ⟨JsNum.fin a, JsNum.fin b⟩ => ⟨a, b⟩
  | _ => ⟨-7269 / 10000, 1889 / 10000⟩

/-- `JuliaFractal.iterate` (src/algorithms/julia.ts lines 76-112):
`z₀ = point`, step `z ↦ z² + c` with the fixed constant `c`, metadata
`{juliaC: c}` on every result. -/
def JuliaFractal.iterate (point : Complex) (config : FractalConfig) : FractalResult :=
  let escapeRadius := config.escapeRadius.getD 2
  let c := juliaConst config
  iterLoop (mandelStep c) (escapeRadius * escapeRadius) true (some c)
    config.maxIterations point 0

/-- `BurningShipFractal.iterate` (src/algorithms, lines 162-184): `z₀ = 0`,
Burning Ship step; its result literals contain no `finalZ` field. -/
def BurningShipFractal.iterate (point : Complex) (config : FractalConfig) : FractalResult :=
  let escapeRadius := config.escapeRadius.getD 2
  iterLoop (shipStep point) (escapeRadius * escapeRadius) false none
    config.maxIterations ⟨0, 0⟩ 0

/-- `MandelbrotFractal.validateConfig` (src/algorithms/mandelbrot.ts lines
114-122). -/
def MandelbrotFractal.validateConfig (config : FractalConfig) : Bool :=
  decide (config.maxIterations > 0) &&
  decide ((config.escapeRadius.getD 2) > 0) &&
  decide (config.width > 0) &&
  decide (config.height > 0) &&
  decide (config.zoom > 0)

/-- `JuliaFractal.validateConfig` (src/algorithms/julia.ts lines 119-137):
first delegates to `super.validateConfig` (which is
`BaseFractal.validateConfig`, always `true`), then checks that `juliaC`
exists and both components are finite numbers. -/
def JuliaFractal.validateConfig (config : FractalConfig) : Bool :=
  if !(BaseFractal.validateConfig config) then false
  else
    match config.juliaC with
    | none => false
    | some jc =>
      if !jc.real.isTypeofNumber || !jc.imag.isTypeofNumber ||
         !jc.real.isFiniteNum || !jc.imag.isFiniteNum then false
      else true

/-- The loop of `mandelbrotIteration` (src/mandelbrot.ts lines 17-37):
`while (iteration < maxIterations && x*x + y*y < r²) { step; iteration++ }`.
`fuel` is `maxIterations - iteration`. -/
def mandelbrotIterationGo (cx cy escR2 : ℚ) : ℕ → ℚ → ℚ → ℕ → ℕ
  | 0, _, _, iteration => iteration
  | fuel + 1, x, y, iteration =>
    if x * x + y * y < escR2 then
      mandelbrotIterationGo cx cy escR2 fuel (x * x - y * y + cx) (2 * x * y + cy)
        (iteration + 1)
    else iteration

/-- `mandelbrotIteration(cx, cy, maxIterations, escapeRadius)`
(src/mandelbrot.ts lines 17-37), returning the iteration count. -/
def mandelbrotIteration (cx cy : ℚ) (maxIterations : ℕ) (escapeRadius : ℚ) : ℕ :=
  mandelbrotIterationGo cx cy (escapeRadius * escapeRadius) maxIterations 0 0 0

end Mandel

namespace Mandel

/-- `Math.round` on a (real-valued) JavaScript number: round half toward
positive infinity, `⌊x + 1/2⌋`. -/
def jsRound (q : ℚ) : ℤ :=
  ⌊q + 1 / 2⌋

/-- `RGBColor`: a triple of channel values. -/
abbrev RGBColor := ℤ × ℤ × ℤ

/-- `interpolateColor` (src/colors.ts lines 260-265):
`round(c1 + (c2 - c1) * factor)` per channel. -/
def interpolateColor (c1 c2 : RGBColor) (factor : ℚ) : RGBColor :=
  (jsRound ((c1.1 : ℚ) + ((c2.1 : ℚ) - (c1.1 : ℚ)) * factor),
   jsRound ((c1.2.1 : ℚ) + ((c2.2.1 : ℚ) - (c1.2.1 : ℚ)) * factor),
   jsRound ((c1.2.2 : ℚ) + ((c2.2.2 : ℚ) - (c1.2.2 : ℚ)) * factor))

/-- `segments = controlPoints.length - 1` (src/colors.ts line 275). -/
def paletteSegments (controlPoints : List RGBColor) : ℤ :=
  (controlPoints.length : ℤ) - 1

/-- `position = (i / (size - 1)) * segments` for sample `i`
(src/colors.ts line 278). -/
def palettePosition (controlPoints : List RGBColor) (size i : ℕ) : ℚ :=
  ((i : ℚ) / ((size : ℚ) - 1)) * ((paletteSegments controlPoints : ℤ) : ℚ)

/-- Sample `i` of the palette loop body (src/colors.ts lines 277-292):
`segmentIndex = floor(position)`, `segmentPosition = position -
segmentIndex`; the last control point when `segmentIndex >= segments`,
otherwise the interpolation inside segment `segmentIndex`. -/
def paletteSample (controlPoints : List RGBColor) (size i : ℕ) : RGBColor :=
  if ⌊palettePosition controlPoints size i⌋ ≥ paletteSegments controlPoints then
    (controlPoints.getLast?).getD (0, 0, 0)
  else
    interpolateColor
      (controlPoints.getD (⌊palettePosition controlPoints size i⌋).toNat (0, 0, 0))
      (controlPoints.getD ((⌊palettePosition controlPoints size i⌋).toNat + 1) (0, 0, 0))
      (palettePosition controlPoints size i - ((⌊palettePosition controlPoints size i⌋ : ℤ) : ℚ))

/-- `generatePalette` (src/colors.ts lines 273-295): `size` samples, the
output divided into `N-1` segments between the control points, linear
interpolation inside a segment, last sample taken from the last control
point.  The loop pushing sample `i` for `i = 0,…,size-1` is rendered as a
map over `List.range size`. -/
def generatePalette (controlPoints : List RGBColor) (size : ℕ) : List RGBColor :=
  (List.range size).map (paletteSample controlPoints size)

/-- Control points of the `rainbow` palette (src/colors.ts). -/
def rainbowControl : List RGBColor :=
  [(66, 30, 15), (25, 7, 26), (9, 1, 47), (4, 4, 73), (0, 7, 100),
   (12, 44, 138), (24, 82, 177), (57, 125, 209), (134, 181, 229),
   (211, 236, 248), (241, 233, 191), (248, 201, 95), (255, 170, 0),
   (204, 128, 0), (153, 87, 0), (106, 52, 3)]

/-- Control points of the `fire` palette. -/
def fireControl : List RGBColor :=
  [(0, 0, 0), (32, 0, 0), (64, 0, 0), (96, 32, 0), (128, 64, 0),
   (160, 96, 32), (192, 128, 64), (255, 192, 128), (255, 255, 192),
   (255, 255, 255)]

/-- Control points of the `blue` palette. -/
def blueControl : List RGBColor :=
  [(0, 0, 0), (0, 0, 64), (0, 0, 128), (0, 64, 192), (0, 128, 255),
   (64, 192, 255), (128, 224, 255), (192, 240, 255), (255, 255, 255)]

/-- Control points of the `grayscale` palette. -/
def grayscaleControl : List RGBColor :=
  [(0, 0, 0), (64, 64, 64), (128, 128, 128), (192, 192, 192), (255, 255, 255)]

/-- Control points of the `purple` palette. -/
def purpleControl : List RGBColor :=
  [(0, 0, 0), (32, 0, 32), (64, 0, 64), (96, 32, 96), (128, 64, 128),
   (160, 96, 160), (192, 128, 192), (224, 160, 224), (255, 192, 255),
   (255, 255, 255)]

/-- Control points of the `sunset` palette. -/
def sunsetControl : List RGBColor :=
  [(25, 25, 112), (70, 130, 180), (135, 206, 235), (255, 165, 0),
   (255, 69, 0), (220, 20, 60), (139, 0, 139), (75, 0, 130)]

/-- The cached `rainbow` palette (`generatePalette(..., 256)`). -/
def rainbowPalette : List RGBColor := generatePalette rainbowControl 256

/-- The `colorPalettes` registry (src/colors.ts lines 298-374): the six
named palettes, each generated once with the default size 256. -/
def colorPalettes (name : String) : Option (List RGBColor) :=
  if name = "rainbow" then some rainbowPalette
  else if name = "fire" then some (generatePalette fireControl 256)
  else if name = "blue" then some (generatePalette blueControl 256)
  else if name = "grayscale" then some (generatePalette grayscaleControl 256)
  else if name = "purple" then some (generatePalette purpleControl 256)
  else if name = "sunset" then some (generatePalette sunsetControl 256)
  else none

/-- `getColor` (src/colors.ts lines 383-391): black for `iterations >=
maxIterations`, otherwise the entry of `colorPalettes[paletteType] ||
colorPalettes.rainbow` at `floor((iterations/maxIterations) *
(palette.length - 1))`.  The in-range array access `palette[index]` is
rendered with `getD`; the index is proved in range in the theorems below. -/
def getColor (iterations maxIterations : ℕ) (paletteType : String) : RGBColor :=
  if iterations ≥ maxIterations then (0, 0, 0)
  else
    let palette := (colorPalettes paletteType).getD rainbowPalette
    let index : ℕ :=
      (⌊((iterations : ℚ) / (maxIterations : ℚ)) * ((palette.length : ℚ) - 1)⌋).toNat
    palette.getD index (0, 0, 0)

/-- Clamping a written value to a byte, as `Uint8ClampedArray` does for the
integer values written by the engine. -/
def clampByte (v : ℤ) : ℕ :=
  (min 255 (max 0 v)).toNat

/-- A `Uint8ClampedArray`: a fixed size and the byte contents.  Writes out
of range are dropped, as in JavaScript typed arrays. -/
structure U8Array where
  size : ℕ
  data : ℕ → ℕ

/-- `new Uint8ClampedArray(n)`: zero-initialised. -/
def U8Array.mk0 (n : ℕ) : U8Array :=
  ⟨n, fun _ => 0⟩

/-- `a[i] = v` on a `Uint8ClampedArray`. -/
def U8Array.set (a : U8Array) (i : ℕ) (v : ℤ) : U8Array :=
  if i < a.size then ⟨a.size, fun j => if j = i then clampByte v else a.data j⟩ else a

/-- The four writes
`buf[index]=r; buf[index+1]=g; buf[index+2]=b; buf[index+3]=255` shared by
every pixel loop of the engine. -/
def writeRGBA (buf : U8Array) (index : ℕ) (c : RGBColor) : U8Array :=
  (((buf.set index c.1).set (index + 1) c.2.1).set (index + 2) c.2.2).set (index + 3) 255

/-- The real coordinate sampled by the standalone pipeline for column `px`:
`cx = bounds.minReal + px * realStep`, `realStep = (maxReal - minReal)/width`
(src/mandelbrot.ts lines 54, 65). -/
def mandelPixelCx (bounds : FractalBounds) (width : ℕ) (px : ℕ) : ℚ :=
  bounds.minReal + (px : ℚ) * ((bounds.maxReal - bounds.minReal) / (width : ℚ))

/-- The imaginary coordinate sampled by the standalone pipeline for row `py`:
`cy = bounds.maxImaginary - py * imaginaryStep` (src/mandelbrot.ts lines 55, 62). -/
def mandelPixelCy (bounds : FractalBounds) (height : ℕ) (py : ℕ) : ℚ :=
  bounds.maxImaginary - (py : ℚ) * ((bounds.maxImaginary - bounds.minImaginary) / (height : ℚ))

/-- The RGB triple the standalone pipeline computes for pixel `(px, py)`:
iterate the sampled point, then map through `getColor`. -/
def pixelColorM (config : MandelbrotConfig) (px py : ℕ) : RGBColor :=
  let bounds := calculateBounds config
  getColor
    (mandelbrotIteration (mandelPixelCx bounds config.width px)
      (mandelPixelCy bounds config.height py) config.maxIterations config.escapeRadius)
    config.maxIterations config.colorPalette

/-- One row of the pixel loop writing at computed indices
`pixelIndex = (py*width + px)*4`, as in `generateMandelbrotDataOptimized`
and `BaseFractal.generateData`. -/
def writePixelRow (colorOf : ℕ → ℕ → RGBColor) (width : ℕ) (buf : U8Array) (py : ℕ) : U8Array :=
  (List.range width).foldl
    (fun b px => writeRGBA b ((py * width + px) * 4) (colorOf px py)) buf

/-- `generateMandelbrotData` (src/mandelbrot.ts lines 44-88): allocate
`width*height*4` bytes, loop rows then columns, write RGBA through a running
`pixelIndex` incremented by 4 per pixel (the `console.log` progress output
has no effect on the buffer and is omitted). -/
def generateMandelbrotData (config : MandelbrotConfig) : U8Array :=
  ((List.range config.height).foldl
    (fun st py =>
      (List.range config.width).foldl
        (fun st2 px => (writeRGBA st2.1 st2.2 (pixelColorM config px py), st2.2 + 4)) st)
    (U8Array.mk0 (config.width * config.height * 4), 0)).1

/-- `rowsPerWorker = Math.ceil(height / workerCount)` (src/mandelbrot.ts
line 107), exact on naturals. -/
def rowsPerWorkerOf (height workerCount : ℕ) : ℕ :=
  (height + workerCount - 1) / workerCount

/-- The row range of chunk `w`: `startRow = w*rowsPerWorker`,
`endRow = min((w+1)*rowsPerWorker, height)` (src/mandelbrot.ts lines 111-112). -/
def chunkRows (height workerCount w : ℕ) : List ℕ :=
  let rpw := rowsPerWorkerOf height workerCount
  List.range' (w * rpw) (min ((w + 1) * rpw) height - w * rpw)

/-- `generateMandelbrotDataOptimized` (src/mandelbrot.ts lines 96-145),
modelled as the merge of its per-chunk computations into the shared buffer:
the `setTimeout(..., 0)` callbacks run on the single-threaded event queue in
registration order `w = 0,…,workerCount-1`, each writing its row range at
computed indices `(py*width + px)*4`. -/
def generateMandelbrotDataOptimized (config : MandelbrotConfig) (workerCount : ℕ) : U8Array :=
  (List.range workerCount).foldl
    (fun buf w =>
      (chunkRows config.height workerCount w).foldl
        (writePixelRow (pixelColorM config) config.width) buf)
    (U8Array.mk0 (config.width * config.height * 4))

/-- The RGB triple `BaseFractal.generateData` computes for pixel `(x, y)`:
`screenToComplex`, then the algorithm's `iterate`, then its `getColor` hook. -/
def basePixelColor (algIterate : Complex → FractalConfig → FractalResult)
    (algColor : FractalResult → FractalConfig → RGBColor)
    (config : FractalConfig) (px py : ℕ) : RGBColor :=
  let bounds := BaseFractal.calculateBounds config
  algColor (algIterate (BaseFractal.screenToComplex px py bounds config) config) config

/-- `BaseFractal.generateData` (src/core/base-fractal.ts lines 41-61),
parameterised by the algorithm's `iterate` and `getColor` hooks: rows top to
bottom, columns left to right, RGBA written at `(y*width + x)*4`. -/
def BaseFractal.generateData (algIterate : Complex → FractalConfig → FractalResult)
    (algColor : FractalResult → FractalConfig → RGBColor)
    (config : FractalConfig) : U8Array :=
  (List.range config.height).foldl
    (writePixelRow (basePixelColor algIterate algColor config) config.width)
    (U8Array.mk0 (config.width * config.height * 4))

/-- The orbit of a point under an iteration step (`orbit step z0 n` is the
value of `z` after `n` loop iterations). -/
def orbit (step : Complex → Complex) (z0 : Complex) : ℕ → Complex
  | 0 => z0
  | n + 1 => step (orbit step z0 n)

end Mandel

namespace Mandel

/-- Structural copy of a `MandelbrotConfig` with a new zoom. -/
def MandelbrotConfig.withZoom (cfg : MandelbrotConfig) (z : ℚ) : MandelbrotConfig :=
  ⟨cfg.width, cfg.height, cfg.maxIterations, cfg.escapeRadius, z, cfg.centerX,
   cfg.centerY, cfg.colorPalette⟩

/-- Structural copy of a `MandelbrotConfig` with a new center. -/
def MandelbrotConfig.withCenter (cfg : MandelbrotConfig) (cx cy : ℚ) : MandelbrotConfig :=
  ⟨cfg.width, cfg.height, cfg.maxIterations, cfg.escapeRadius, cfg.zoom, cx, cy,
   cfg.colorPalette⟩

/-- Structural copy of a `FractalConfig` with a new zoom. -/
def FractalConfig.withZoom (cfg : FractalConfig) (z : ℚ) : FractalConfig :=
  ⟨cfg.width, cfg.height, cfg.centerX, cfg.centerY, z, cfg.maxIterations,
   cfg.escapeRadius, cfg.colorPalette, cfg.juliaC⟩

/-- Structural copy of a `FractalConfig` with a new center. -/
def FractalConfig.withCenter (cfg : FractalConfig) (cx cy : ℚ) : FractalConfig :=
  ⟨cfg.width, cfg.height, cx, cy, cfg.zoom, cfg.maxIterations,
   cfg.escapeRadius, cfg.colorPalette, cfg.juliaC⟩

/-- Each channel of an RGB triple is an integer in `[0, 255]`. -/
def inByteRange (c : RGBColor) : Prop :=
  0 ≤ c.1 ∧ c.1 ≤ 255 ∧ 0 ≤ c.2.1 ∧ c.2.1 ≤ 255 ∧ 0 ≤ c.2.2 ∧ c.2.2 ≤ 255

/-- Concrete configuration used to exhibit the non-inverted imaginary axis of
`BaseFractal.screenToComplex`. -/
def cfgC1ce : FractalConfig :=
  ⟨2, 2, 0, 0, 1, 10, some 2, "rainbow", none⟩

/-- Concrete configuration on which Burning Ship escapes. -/
def cfgC2ce : FractalConfig :=
  ⟨800, 600, 0, 0, 1, 2, some 2, "rainbow", none⟩

/-- Concrete configuration with invalid base data (`width = 0`) and a valid
`juliaC`. -/
def cfgC3ce : FractalConfig :=
  ⟨0, 600, 0, 0, 1, 100, some 2, "rainbow", some ⟨JsNum.fin (-1 / 2), JsNum.fin (1 / 2)⟩⟩

/-- Concrete configuration (maxIterations 2, escapeRadius 2) on which the two
Mandelbrot implementations disagree. -/
def cfgC5ce : FractalConfig :=
  ⟨800, 600, 0, 0, 1, 2, some 2, "rainbow", none⟩

end Mandel

namespace Mandel

/-- `MandelbrotFractal.getColor` hook (src/algorithms/mandelbrot.ts lines
109-112): forwards iterations / maxIterations / palette name. -/
def MandelbrotFractal.getColorHook (result : FractalResult) (config : FractalConfig) : RGBColor :=
  getColor result.iterations config.maxIterations config.colorPalette

/-- Small valid configuration used by witnesses (`FractalConfig` side). -/
def cfgW7 : FractalConfig :=
  ⟨2, 2, 0, 0, 1, 5, some 2, "rainbow", none⟩

/-- Small valid configuration used by witnesses (`MandelbrotConfig` side):
width 1, height 2, one iteration. -/
def cfgW4 : MandelbrotConfig :=
  ⟨1, 2, 1, 2, 1, 0, 0, "rainbow"⟩

/-- Valid square configuration used by the bounds witness. -/
def cfgW6 : MandelbrotConfig :=
  ⟨800, 600, 100, 2, 1, -1 / 2, 0, "rainbow"⟩

/-- 1×1 configuration used by the buffer witness. -/
def cfgW10 : MandelbrotConfig :=
  ⟨1, 1, 1, 2, 1, 0, 0, "rainbow"⟩

/-- 1×1 configuration used by the buffer witness (`FractalConfig` side). -/
def cfgW10F : FractalConfig :=
  ⟨1, 1, 0, 0, 1, 1, some 2, "rainbow", none⟩

end Mandel

namespace Mandel

/-- If the step fixes `z` and `z` never satisfies the escape test, the shared
iterate loop consumes all its fuel and reports `max_iterations`. -/
theorem iterLoop_const (step : Complex → Complex) (escR2 : ℚ) (keepZ : Bool)
    (meta : Option Complex) (z : Complex) (hz : step z = z)
    (hg : ¬ normSq z > escR2) :
    ∀ fuel j, iterLoop step escR2 keepZ meta fuel z j =
      ⟨j + fuel, false, if keepZ then some z else none, some "max_iterations", meta⟩ := by
  intro fuel
  induction fuel with
  | zero => intro j; simp [iterLoop]
  | succ n ih =>
    intro j
    rw [iterLoop, if_neg hg, hz, ih]
    congr 1
    omega

/-- If the step fixes `(x, y)` and the continue test always holds there, the
standalone loop consumes all its fuel. -/
theorem mandelbrotIterationGo_const (cx cy escR2 : ℚ) (x y : ℚ)
    (hx : x * x - y * y + cx = x) (hy : 2 * x * y + cy = y)
    (hg : x * x + y * y < escR2) :
    ∀ fuel j, mandelbrotIterationGo cx cy escR2 fuel x y j = j + fuel := by
  intro fuel
  induction fuel with
  | zero => intro j; simp [mandelbrotIterationGo]
  | succ n ih =>
    intro j
    rw [mandelbrotIterationGo, if_pos hg, hx, hy, ih]
    omega

/-- C7: iterating the origin under the Mandelbrot rule with any
`maxIterations > 0` and escape radius 2 never escapes: both the plugin
`MandelbrotFractal.iterate` and the standalone `mandelbrotIteration` report
`maxIterations` iterations with no escape (the orbit stays at 0). -/
theorem claim7_origin_never_escapes (cfg : FractalConfig) (maxIter : ℕ)
    (_hpos : 0 < maxIter) (hmax : cfg.maxIterations = maxIter)
    (hr : cfg.escapeRadius.getD 2 = 2) :
    (MandelbrotFractal.iterate ⟨0, 0⟩ cfg).iterations = maxIter ∧
    (MandelbrotFractal.iterate ⟨0, 0⟩ cfg).escaped = false ∧
    mandelbrotIteration 0 0 maxIter 2 = maxIter := by
  have hstep : mandelStep ⟨0, 0⟩ ⟨0, 0⟩ = (⟨0, 0⟩ : Complex) := by
    simp [mandelStep]
  have hg : ¬ normSq (⟨0, 0⟩ : Complex) > ((2 : ℚ) * 2) := by
    norm_num [normSq]
  unfold MandelbrotFractal.iterate
  rw [hr, hmax, iterLoop_const _ _ _ _ _ hstep hg]
  refine ⟨by simp, rfl, ?_⟩
  unfold mandelbrotIteration
  rw [mandelbrotIterationGo_const 0 0 ((2 : ℚ) * 2) 0 0 (by norm_num) (by norm_num)
    (by norm_num)]
  omega

/-- Witness for C7 at `maxIterations = 5`. -/
theorem claim7_origin_never_escapes_witness :
    (MandelbrotFractal.iterate ⟨0, 0⟩ cfgW7).iterations = 5 ∧
    (MandelbrotFractal.iterate ⟨0, 0⟩ cfgW7).escaped = false ∧
    mandelbrotIteration 0 0 5 2 = 5 :=
  claim7_origin_never_escapes cfgW7 5 (by decide) (by decide) (by decide)

/-- C9: an unknown palette name (any name that is not a key of the palette
registry, i.e. `colorPalettes name = none`) makes `getColor` fall back to the
rainbow palette; no error is possible (the function is total). -/
theorem claim9_unknown_palette_falls_back (n m : ℕ) (name : String)
    (h : colorPalettes name = none) :
    getColor n m name = getColor n m "rainbow" := by
  have hr : colorPalettes "rainbow" = some rainbowPalette := rfl
  simp only [getColor, h, hr, Option.getD_some, Option.getD_none]

/-- Witness for C9 at the name `"nonexistent"`. -/
theorem claim9_unknown_palette_falls_back_witness :
    getColor 3 10 "nonexistent" = getColor 3 10 "rainbow" :=
  claim9_unknown_palette_falls_back 3 10 "nonexistent" (by decide)

end Mandel

namespace Mandel

/-- C6 (amended is not needed; as claimed): algebra of the computed plane
bounds, for both `calculateBounds` (src/config.ts) and
`BaseFractal.calculateBounds` (src/core/base-fractal.ts): the vertical span
is exactly `4/zoom`, the horizontal span is `(4/zoom)*(width/height)`, the
bounds are centred exactly on `(centerX, centerY)`, doubling the zoom halves
both spans, and translating the center translates the bounds by exactly the
delta. -/
theorem claim6_bounds_algebra (cfg : MandelbrotConfig) (cfg' : FractalConfig)
    (hz : 0 < cfg.zoom) (hz' : 0 < cfg'.zoom) :
    ((calculateBounds cfg).maxImaginary - (calculateBounds cfg).minImaginary
        = 4 / cfg.zoom ∧
      (calculateBounds cfg).maxReal - (calculateBounds cfg).minReal
        = 4 / cfg.zoom * ((cfg.width : ℚ) / (cfg.height : ℚ)) ∧
      (calculateBounds cfg).minReal = cfg.centerX -
        ((calculateBounds cfg).maxReal - (calculateBounds cfg).minReal) / 2 ∧
      (calculateBounds cfg).maxReal = cfg.centerX +
        ((calculateBounds cfg).maxReal - (calculateBounds cfg).minReal) / 2 ∧
      (calculateBounds cfg).minImaginary = cfg.centerY -
        ((calculateBounds cfg).maxImaginary - (calculateBounds cfg).minImaginary) / 2 ∧
      (calculateBounds cfg).maxImaginary = cfg.centerY +
        ((calculateBounds cfg).maxImaginary - (calculateBounds cfg).minImaginary) / 2 ∧
      (calculateBounds (cfg.withZoom (2 * cfg.zoom))).maxReal -
          (calculateBounds (cfg.withZoom (2 * cfg.zoom))).minReal
        = ((calculateBounds cfg).maxReal - (calculateBounds cfg).minReal) / 2 ∧
      (calculateBounds (cfg.withZoom (2 * cfg.zoom))).maxImaginary -
          (calculateBounds (cfg.withZoom (2 * cfg.zoom))).minImaginary
        = ((calculateBounds cfg).maxImaginary - (calculateBounds cfg).minImaginary) / 2 ∧
      ∀ dx dy : ℚ,
        (calculateBounds (cfg.withCenter (cfg.centerX + dx) (cfg.centerY + dy))).minReal
          = (calculateBounds cfg).minReal + dx ∧
        (calculateBounds (cfg.withCenter (cfg.centerX + dx) (cfg.centerY + dy))).maxReal
          = (calculateBounds cfg).maxReal + dx ∧
        (calculateBounds (cfg.withCenter (cfg.centerX + dx) (cfg.centerY + dy))).minImaginary
          = (calculateBounds cfg).minImaginary + dy ∧
        (calculateBounds (cfg.withCenter (cfg.centerX + dx) (cfg.centerY + dy))).maxImaginary
          = (calculateBounds cfg).maxImaginary + dy) ∧
    ((BaseFractal.calculateBounds cfg').maxY - (BaseFractal.calculateBounds cfg').minY
        = 4 / cfg'.zoom ∧
      (BaseFractal.calculateBounds cfg').maxX - (BaseFractal.calculateBounds cfg').minX
        = 4 / cfg'.zoom * ((cfg'.width : ℚ) / (cfg'.height : ℚ)) ∧
      (BaseFractal.calculateBounds cfg').minX = cfg'.centerX -
        ((BaseFractal.calculateBounds cfg').maxX - (BaseFractal.calculateBounds cfg').minX) / 2 ∧
      (BaseFractal.calculateBounds cfg').maxX = cfg'.centerX +
        ((BaseFractal.calculateBounds cfg').maxX - (BaseFractal.calculateBounds cfg').minX) / 2 ∧
      (BaseFractal.calculateBounds (cfg'.withZoom (2 * cfg'.zoom))).maxX -
          (BaseFractal.calculateBounds (cfg'.withZoom (2 * cfg'.zoom))).minX
        = ((BaseFractal.calculateBounds cfg').maxX - (BaseFractal.calculateBounds cfg').minX) / 2 ∧
      ∀ dx dy : ℚ,
        (BaseFractal.calculateBounds (cfg'.withCenter (cfg'.centerX + dx) (cfg'.centerY + dy))).minX
          = (BaseFractal.calculateBounds cfg').minX + dx ∧
        (BaseFractal.calculateBounds (cfg'.withCenter (cfg'.centerX + dx) (cfg'.centerY + dy))).minY
          = (BaseFractal.calculateBounds cfg').minY + dy) := by
  have hzne : cfg.zoom ≠ 0 := ne_of_gt hz
  have hzne' : cfg'.zoom ≠ 0 := ne_of_gt hz'
  refine ⟨⟨by simp only [calculateBounds]; ring, by simp only [calculateBounds]; ring,
    by simp only [calculateBounds]; ring, by simp only [calculateBounds]; ring,
    by simp only [calculateBounds]; ring, by simp only [calculateBounds]; ring,
    ?_, ?_, ?_⟩, ⟨by simp only [BaseFractal.calculateBounds]; ring,
    by simp only [BaseFractal.calculateBounds]; ring,
    by simp only [BaseFractal.calculateBounds]; ring,
    by simp only [BaseFractal.calculateBounds]; ring, ?_, ?_⟩⟩
  · simp only [calculateBounds, MandelbrotConfig.withZoom]
    field_simp
    ring
  · simp only [calculateBounds, MandelbrotConfig.withZoom]
    field_simp
    ring
  · intro dx dy
    refine ⟨?_, ?_, ?_, ?_⟩ <;>
      simp only [calculateBounds, MandelbrotConfig.withCenter] <;> ring
  · simp only [BaseFractal.calculateBounds, FractalConfig.withZoom]
    field_simp
    ring
  · intro dx dy
    refine ⟨?_, ?_⟩ <;>
      simp only [BaseFractal.calculateBounds, FractalConfig.withCenter] <;> ring

/-- Witness for C6 at a concrete 800×600 view with zoom 1. -/
theorem claim6_bounds_algebra_witness :
    (calculateBounds cfgW6).maxImaginary - (calculateBounds cfgW6).minImaginary
      = 4 / cfgW6.zoom ∧
    (BaseFractal.calculateBounds cfgW7).maxY - (BaseFractal.calculateBounds cfgW7).minY
      = 4 / cfgW7.zoom :=
  ⟨(claim6_bounds_algebra cfgW6 cfgW7 (by decide) (by decide)).1.1,
   (claim6_bounds_algebra cfgW6 cfgW7 (by decide) (by decide)).2.1⟩

end Mandel

namespace Mandel

/-- Counterexample to C1 as stated: in the plugin pipeline,
`BaseFractal.screenToComplex` does NOT invert the imaginary axis.  At pixel
`(0, 0)` of a 2×2 view centred on the origin with zoom 1 it yields imaginary
coordinate `minY = -2`, not the claimed `maxImaginary - 0·step = 2`. -/
theorem claim1_counterexample :
    (BaseFractal.screenToComplex 0 0 (BaseFractal.calculateBounds cfgC1ce) cfgC1ce).imag ≠
      (BaseFractal.calculateBounds cfgC1ce).maxY -
        (0 : ℚ) * (((BaseFractal.calculateBounds cfgC1ce).maxY -
          (BaseFractal.calculateBounds cfgC1ce).minY) / (cfgC1ce.height : ℚ)) := by
  norm_num [BaseFractal.screenToComplex, BaseFractal.calculateBounds, cfgC1ce]

/-- C1 amended: the standalone pipeline (`generateMandelbrotData`, whose
per-pixel computation is `pixelColorM`) samples
`cx = minReal + px * (horizontalSpan/width)` and the inverted
`cy = maxImaginary - py * (verticalSpan/height)`, as claimed; the plugin
pipeline's `BaseFractal.screenToComplex` uses the claimed real mapping but
does NOT invert the imaginary axis: it yields
`minImaginary + py * (verticalSpan/height)`. -/
theorem claim1_pixel_mapping_amended (cfg : MandelbrotConfig) (cfg' : FractalConfig)
    (px py px' py' : ℕ) (_hpx : px < cfg.width) (_hpy : py < cfg.height)
    (_hpx' : px' < cfg'.width) (_hpy' : py' < cfg'.height) :
    (pixelColorM cfg px py =
      getColor
        (mandelbrotIteration
          ((calculateBounds cfg).minReal + (px : ℚ) *
            (((calculateBounds cfg).maxReal - (calculateBounds cfg).minReal) / (cfg.width : ℚ)))
          ((calculateBounds cfg).maxImaginary - (py : ℚ) *
            (((calculateBounds cfg).maxImaginary - (calculateBounds cfg).minImaginary) /
              (cfg.height : ℚ)))
          cfg.maxIterations cfg.escapeRadius)
        cfg.maxIterations cfg.colorPalette) ∧
    ((BaseFractal.screenToComplex px' py' (BaseFractal.calculateBounds cfg') cfg').real =
      (BaseFractal.calculateBounds cfg').minX + (px' : ℚ) *
        (((BaseFractal.calculateBounds cfg').maxX - (BaseFractal.calculateBounds cfg').minX) /
          (cfg'.width : ℚ))) ∧
    ((BaseFractal.screenToComplex px' py' (BaseFractal.calculateBounds cfg') cfg').imag =
      (BaseFractal.calculateBounds cfg').minY + (py' : ℚ) *
        (((BaseFractal.calculateBounds cfg').maxY - (BaseFractal.calculateBounds cfg').minY) /
          (cfg'.height : ℚ))) := by
  refine ⟨rfl, ?_, ?_⟩ <;> simp only [BaseFractal.screenToComplex] <;> ring

/-- Witness for the amended C1 at pixel `(1, 1)` of a 2×2 view. -/
theorem claim1_pixel_mapping_amended_witness :
    (BaseFractal.screenToComplex 1 1 (BaseFractal.calculateBounds cfgC1ce) cfgC1ce).imag =
      (BaseFractal.calculateBounds cfgC1ce).minY + (1 : ℚ) *
        (((BaseFractal.calculateBounds cfgC1ce).maxY - (BaseFractal.calculateBounds cfgC1ce).minY) /
          (cfgC1ce.height : ℚ)) :=
  (claim1_pixel_mapping_amended cfgW4 cfgC1ce 0 1 1 1 (by decide) (by decide)
    (by decide) (by decide)).2.2

/-- Counterexample to C3 as stated: a configuration with invalid base data
(`width = 0`, non-positive) and a valid `juliaC` is accepted by
`JuliaFractal.validateConfig` — the base configuration is never checked,
because `super.validateConfig` is `BaseFractal.validateConfig`, which always
returns `true`. -/
theorem claim3_counterexample :
    JuliaFractal.validateConfig cfgC3ce = true ∧ cfgC3ce.width = 0 :=
  ⟨rfl, rfl⟩

/-- C3 amended: `JuliaFractal.validateConfig` decides only the `juliaC`
field — it returns `true` exactly when `juliaC` is present with two finite
numeric components, regardless of the base configuration (whose check,
`BaseFractal.validateConfig`, always passes). -/
theorem claim3_validate_amended (cfg : FractalConfig) :
    JuliaFractal.validateConfig cfg = true ↔
      ∃ a b : ℚ, cfg.juliaC = some ⟨JsNum.fin a, JsNum.fin b⟩ := by
  unfold JuliaFractal.validateConfig BaseFractal.validateConfig
  rcases hj : cfg.juliaC with _ | jc
  · simp
  · rcases jc with ⟨jr, ji⟩
    rcases jr with q | _ | _ <;> rcases ji with q' | _ | _ <;>
      simp [JsNum.isTypeofNumber, JsNum.isFiniteNum]

/-- Witness for the amended C3: the concrete configuration `cfgC3ce` carries
`juliaC = (-1/2, 1/2)` and is accepted. -/
theorem claim3_validate_amended_witness :
    JuliaFractal.validateConfig cfgC3ce = true :=
  (claim3_validate_amended cfgC3ce).mpr ⟨-1 / 2, 1 / 2, rfl⟩

/-- Counterexample to C2 as stated: the Burning Ship `iterate` does NOT
return the final z — its result literals contain no `finalZ` field.  At the
escaping point `(3, 0)` it reports the escape but `finalZ` is absent. -/
theorem claim2_counterexample :
    (BurningShipFractal.iterate ⟨3, 0⟩ cfgC2ce).escaped = true ∧
    (BurningShipFractal.iterate ⟨3, 0⟩ cfgC2ce).finalZ = none := by
  norm_num [BurningShipFractal.iterate, iterLoop, shipStep, normSq, cfgC2ce]

/-- Counterexample to C5 as stated: the two Mandelbrot implementations treat
the boundary `|z|² = escapeRadius²` differently (`<` to continue vs `>` to
escape).  At `c = (2, 0)`, `maxIterations = 2`, `escapeRadius = 2`, the
orbit hits `|z|² = 4` exactly after one step: `mandelbrotIteration` stops
with 1, while `MandelbrotFractal.iterate` keeps iterating and reports 2. -/
theorem claim5_counterexample :
    mandelbrotIteration 2 0 2 2 = 1 ∧
    (MandelbrotFractal.iterate ⟨2, 0⟩ cfgC5ce).iterations = 2 := by
  constructor
  · norm_num [mandelbrotIteration, mandelbrotIterationGo]
  · norm_num [MandelbrotFractal.iterate, iterLoop, mandelStep, normSq, cfgC5ce]

end Mandel

namespace Mandel

/-- Shifting the starting point of an orbit by one step. -/
theorem orbit_shift (step : Complex → Complex) (z : Complex) :
    ∀ k, orbit step (step z) k = orbit step z (k + 1) := by
  intro k
  induction k with
  | zero => simp [orbit]
  | succ k ih => simp only [orbit, ih]

/-- Characterisation of the shared iterate loop: if it reports an escape it
stopped at the first orbit element satisfying the escape test, strictly
before exhausting its fuel, with the corresponding `finalZ` and
`convergenceType`; if it reports no escape it consumed all its fuel, no
orbit element up to the fuel satisfied the test, and it reports
`max_iterations`. -/
theorem iterLoop_spec (step : Complex → Complex) (escR2 : ℚ) (keepZ : Bool)
    (meta : Option Complex) :
    ∀ (fuel : ℕ) (z0 : Complex) (j : ℕ),
      ((iterLoop step escR2 keepZ meta fuel z0 j).escaped = true →
        ∃ m, m < fuel ∧ (iterLoop step escR2 keepZ meta fuel z0 j).iterations = j + m ∧
          normSq (orbit step z0 m) > escR2 ∧
          (∀ k, k < m → ¬ normSq (orbit step z0 k) > escR2) ∧
          (iterLoop step escR2 keepZ meta fuel z0 j).finalZ =
            (if keepZ then some (orbit step z0 m) else none) ∧
          (iterLoop step escR2 keepZ meta fuel z0 j).convergenceType = some "escaped") ∧
      ((iterLoop step escR2 keepZ meta fuel z0 j).escaped = false →
        (iterLoop step escR2 keepZ meta fuel z0 j).iterations = j + fuel ∧
          (∀ k, k < fuel → ¬ normSq (orbit step z0 k) > escR2) ∧
          (iterLoop step escR2 keepZ meta fuel z0 j).finalZ =
            (if keepZ then some (orbit step z0 fuel) else none) ∧
          (iterLoop step escR2 keepZ meta fuel z0 j).convergenceType =
            some "max_iterations") := by
  intro fuel
  induction fuel with
  | zero =>
    intro z0 j
    constructor
    · intro h
      simp [iterLoop] at h
    · intro _
      simp [iterLoop, orbit]
  | succ fuel ih =>
    intro z0 j
    by_cases hg : normSq z0 > escR2
    · rw [iterLoop, if_pos hg]
      constructor
      · intro _
        exact ⟨0, Nat.succ_pos fuel, by simp, by simpa [orbit] using hg,
          fun k hk => absurd hk (Nat.not_lt_zero k), by simp [orbit], rfl⟩
      · intro h
        simp at h
    · rw [iterLoop, if_neg hg]
      have IH := ih (step z0) (j + 1)
      constructor
      · intro hesc
        obtain ⟨m, hmf, hit, hgm, hprev, hfz, hct⟩ := IH.1 hesc
        refine ⟨m + 1, by omega, by omega, ?_, ?_, ?_, hct⟩
        · rw [← orbit_shift]
          exact hgm
        · intro k hk
          cases k with
          | zero => simpa [orbit] using hg
          | succ k' =>
            rw [← orbit_shift]
            exact hprev k' (by omega)
        · rw [hfz, orbit_shift]
      · intro hne
        obtain ⟨hit, hprev, hfz, hct⟩ := IH.2 hne
        refine ⟨by omega, ?_, ?_, hct⟩
        · intro k hk
          cases k with
          | zero => simpa [orbit] using hg
          | succ k' =>
            rw [← orbit_shift]
            exact hprev k' (by omega)
        · rw [hfz, orbit_shift]

/-- The loop contract instantiated at the top of an algorithm's `iterate`
(initial iteration count 0). -/
theorem iterLoop_contract (step : Complex → Complex) (escR2 : ℚ) (keepZ : Bool)
    (meta : Option Complex) (maxIter : ℕ) (z0 : Complex) :
    (iterLoop step escR2 keepZ meta maxIter z0 0).iterations ≤ maxIter ∧
    ((iterLoop step escR2 keepZ meta maxIter z0 0).escaped = true →
      (iterLoop step escR2 keepZ meta maxIter z0 0).iterations < maxIter ∧
      normSq (orbit step z0 (iterLoop step escR2 keepZ meta maxIter z0 0).iterations) > escR2 ∧
      (∀ k, k < (iterLoop step escR2 keepZ meta maxIter z0 0).iterations →
        ¬ normSq (orbit step z0 k) > escR2) ∧
      (iterLoop step escR2 keepZ meta maxIter z0 0).convergenceType = some "escaped" ∧
      (iterLoop step escR2 keepZ meta maxIter z0 0).finalZ =
        (if keepZ then some (orbit step z0
          (iterLoop step escR2 keepZ meta maxIter z0 0).iterations) else none)) ∧
    ((iterLoop step escR2 keepZ meta maxIter z0 0).escaped = false →
      (iterLoop step escR2 keepZ meta maxIter z0 0).iterations = maxIter ∧
      (∀ k, k < maxIter → ¬ normSq (orbit step z0 k) > escR2) ∧
      (iterLoop step escR2 keepZ meta maxIter z0 0).convergenceType =
        some "max_iterations") := by
  have S := iterLoop_spec step escR2 keepZ meta maxIter z0 0
  rcases hb : (iterLoop step escR2 keepZ meta maxIter z0 0).escaped with _ | _
  · obtain ⟨hit, hprev, _hfz, hct⟩ := S.2 hb
    refine ⟨by omega, ?_, ?_⟩
    · intro h
      simp at h
    · intro _
      exact ⟨by omega, hprev, hct⟩
  · obtain ⟨m, hmf, hit, hgm, hprev, hfz, hct⟩ := S.1 hb
    have hm : (iterLoop step escR2 keepZ meta maxIter z0 0).iterations = m := by omega
    refine ⟨by omega, ?_, ?_⟩
    · intro _
      rw [hm]
      exact ⟨hmf, hgm, hprev, hct, hfz⟩
    · intro h
      simp at h

end Mandel

namespace Mandel

/-- With `keepZ = false` (Burning Ship) the loop never reports a `finalZ`. -/
theorem iterLoop_keepZ_false_finalZ (step : Complex → Complex) (escR2 : ℚ)
    (meta : Option Complex) :
    ∀ fuel z j, (iterLoop step escR2 false meta fuel z j).finalZ = none := by
  intro fuel
  induction fuel with
  | zero => intro z j; simp [iterLoop]
  | succ fuel ih =>
    intro z j
    by_cases hg : normSq z > escR2
    · rw [iterLoop, if_pos hg]
      simp
    · rw [iterLoop, if_neg hg]
      exact ih (step z) (j + 1)

/-- C2 amended: each algorithm's `iterate` is the claimed bounded loop —
at most `maxIterations` iterations; the escape test is checked before each
step, so a reported escape happened at the first orbit element whose `|z|²`
exceeds `escapeRadius²`, with `escaped=true`, `convergenceType="escaped"`
and the iteration count at escape; a completed loop reports `escaped=false`,
`convergenceType="max_iterations"` and `iterations=maxIterations`.
Mandelbrot and Julia also return the final z; Burning Ship does NOT — its
results never carry `finalZ` (the amendment). -/
theorem claim2_iterate_contract_amended (point : Complex) (cfg : FractalConfig) :
    ((MandelbrotFractal.iterate point cfg).iterations ≤ cfg.maxIterations ∧
      ((MandelbrotFractal.iterate point cfg).escaped = true →
        (MandelbrotFractal.iterate point cfg).iterations < cfg.maxIterations ∧
        normSq (orbit (mandelStep point) ⟨0, 0⟩
            (MandelbrotFractal.iterate point cfg).iterations) >
          (cfg.escapeRadius.getD 2) * (cfg.escapeRadius.getD 2) ∧
        (∀ k, k < (MandelbrotFractal.iterate point cfg).iterations →
          ¬ normSq (orbit (mandelStep point) ⟨0, 0⟩ k) >
            (cfg.escapeRadius.getD 2) * (cfg.escapeRadius.getD 2)) ∧
        (MandelbrotFractal.iterate point cfg).convergenceType = some "escaped" ∧
        (MandelbrotFractal.iterate point cfg).finalZ =
          some (orbit (mandelStep point) ⟨0, 0⟩
            (MandelbrotFractal.iterate point cfg).iterations)) ∧
      ((MandelbrotFractal.iterate point cfg).escaped = false →
        (MandelbrotFractal.iterate point cfg).iterations = cfg.maxIterations ∧
        (MandelbrotFractal.iterate point cfg).convergenceType = some "max_iterations")) ∧
    ((JuliaFractal.iterate point cfg).iterations ≤ cfg.maxIterations ∧
      ((JuliaFractal.iterate point cfg).escaped = true →
        (JuliaFractal.iterate point cfg).iterations < cfg.maxIterations ∧
        normSq (orbit (mandelStep (juliaConst cfg)) point
            (JuliaFractal.iterate point cfg).iterations) >
          (cfg.escapeRadius.getD 2) * (cfg.escapeRadius.getD 2) ∧
        (∀ k, k < (JuliaFractal.iterate point cfg).iterations →
          ¬ normSq (orbit (mandelStep (juliaConst cfg)) point k) >
            (cfg.escapeRadius.getD 2) * (cfg.escapeRadius.getD 2)) ∧
        (JuliaFractal.iterate point cfg).convergenceType = some "escaped" ∧
        (JuliaFractal.iterate point cfg).finalZ =
          some (orbit (mandelStep (juliaConst cfg)) point
            (JuliaFractal.iterate point cfg).iterations)) ∧
      ((JuliaFractal.iterate point cfg).escaped = false →
        (JuliaFractal.iterate point cfg).iterations = cfg.maxIterations ∧
        (JuliaFractal.iterate point cfg).convergenceType = some "max_iterations")) ∧
    ((BurningShipFractal.iterate point cfg).iterations ≤ cfg.maxIterations ∧
      ((BurningShipFractal.iterate point cfg).escaped = true →
        (BurningShipFractal.iterate point cfg).iterations < cfg.maxIterations ∧
        normSq (orbit (shipStep point) ⟨0, 0⟩
            (BurningShipFractal.iterate point cfg).iterations) >
          (cfg.escapeRadius.getD 2) * (cfg.escapeRadius.getD 2) ∧
        (∀ k, k < (BurningShipFractal.iterate point cfg).iterations →
          ¬ normSq (orbit (shipStep point) ⟨0, 0⟩ k) >
            (cfg.escapeRadius.getD 2) * (cfg.escapeRadius.getD 2)) ∧
        (BurningShipFractal.iterate point cfg).convergenceType = some "escaped") ∧
      ((BurningShipFractal.iterate point cfg).escaped = false →
        (BurningShipFractal.iterate point cfg).iterations = cfg.maxIterations ∧
        (BurningShipFractal.iterate point cfg).convergenceType = some "max_iterations") ∧
      (BurningShipFractal.iterate point cfg).finalZ = none) := by
  have hM := iterLoop_contract (mandelStep point)
    ((cfg.escapeRadius.getD 2) * (cfg.escapeRadius.getD 2)) true none
    cfg.maxIterations ⟨0, 0⟩
  have hJ := iterLoop_contract (mandelStep (juliaConst cfg))
    ((cfg.escapeRadius.getD 2) * (cfg.escapeRadius.getD 2)) true (some (juliaConst cfg))
    cfg.maxIterations point
  have hB := iterLoop_contract (shipStep point)
    ((cfg.escapeRadius.getD 2) * (cfg.escapeRadius.getD 2)) false none
    cfg.maxIterations ⟨0, 0⟩
  have eM : MandelbrotFractal.iterate point cfg =
      iterLoop (mandelStep point)
        ((cfg.escapeRadius.getD 2) * (cfg.escapeRadius.getD 2)) true none
        cfg.maxIterations ⟨0, 0⟩ 0 := rfl
  have eJ : JuliaFractal.iterate point cfg =
      iterLoop (mandelStep (juliaConst cfg))
        ((cfg.escapeRadius.getD 2) * (cfg.escapeRadius.getD 2)) true (some (juliaConst cfg))
        cfg.maxIterations point 0 := rfl
  have eB : BurningShipFractal.iterate point cfg =
      iterLoop (shipStep point)
        ((cfg.escapeRadius.getD 2) * (cfg.escapeRadius.getD 2)) false none
        cfg.maxIterations ⟨0, 0⟩ 0 := rfl
  rw [eM, eJ, eB]
  refine ⟨⟨hM.1, ?_, ?_⟩, ⟨hJ.1, ?_, ?_⟩, ⟨hB.1, ?_, ?_,
    iterLoop_keepZ_false_finalZ _ _ _ _ _ _⟩⟩
  · intro h
    obtain ⟨h1, h2, h3, h4, h5⟩ := hM.2.1 h
    exact ⟨h1, h2, h3, h4, by simpa using h5⟩
  · intro h
    obtain ⟨h1, _h2, h3⟩ := hM.2.2 h
    exact ⟨h1, h3⟩
  · intro h
    obtain ⟨h1, h2, h3, h4, h5⟩ := hJ.2.1 h
    exact ⟨h1, h2, h3, h4, by simpa using h5⟩
  · intro h
    obtain ⟨h1, _h2, h3⟩ := hJ.2.2 h
    exact ⟨h1, h3⟩
  · intro h
    obtain ⟨h1, h2, h3, h4, _h5⟩ := hB.2.1 h
    exact ⟨h1, h2, h3, h4⟩
  · intro h
    obtain ⟨h1, _h2, h3⟩ := hB.2.2 h
    exact ⟨h1, h3⟩

/-- Witness for the amended C2: at the escaping point `(3, 0)` with
`maxIterations = 2`, Mandelbrot's reported count is within bounds and below
the maximum, and Burning Ship carries no `finalZ`. -/
theorem claim2_iterate_contract_amended_witness :
    (MandelbrotFractal.iterate ⟨3, 0⟩ cfgC2ce).iterations < cfgC2ce.maxIterations ∧
    (BurningShipFractal.iterate ⟨3, 0⟩ cfgC2ce).finalZ = none := by
  have h := claim2_iterate_contract_amended ⟨3, 0⟩ cfgC2ce
  have hesc : (MandelbrotFractal.iterate ⟨3, 0⟩ cfgC2ce).escaped = true := by
    norm_num [MandelbrotFractal.iterate, iterLoop, mandelStep, normSq, cfgC2ce]
  exact ⟨(h.1.2.1 hesc).1, h.2.2.2.2.2⟩

end Mandel

namespace Mandel

/-- The standalone loop (continue while `|z|² < r²`) and the plugin loop
(escape when `|z|² > r²`) agree on the iteration count whenever the orbit
never hits `|z|² = r²` exactly within the fuel. -/
theorem mandelLoops_agree (c : Complex) (e2 : ℚ) :
    ∀ (fuel : ℕ) (z : Complex) (j : ℕ),
      (∀ k, k ≤ fuel → normSq (orbit (mandelStep c) z k) ≠ e2) →
      mandelbrotIterationGo c.real c.imag e2 fuel z.real z.imag j =
        (iterLoop (mandelStep c) e2 true none fuel z j).iterations := by
  intro fuel
  induction fuel with
  | zero =>
    intro z j _
    simp [mandelbrotIterationGo, iterLoop]
  | succ fuel ih =>
    intro z j h
    have h0 : normSq z ≠ e2 := by simpa [orbit] using h 0 (by omega)
    by_cases hg : normSq z > e2
    · have hng : ¬ (z.real * z.real + z.imag * z.imag < e2) := by
        unfold normSq at hg
        linarith
      rw [mandelbrotIterationGo, if_neg hng, iterLoop, if_pos hg]
    · have hlt : z.real * z.real + z.imag * z.imag < e2 := by
        have : normSq z < e2 := lt_of_le_of_ne (le_of_not_lt hg) h0
        simpa [normSq] using this
      rw [mandelbrotIterationGo, if_pos hlt, iterLoop, if_neg hg]
      have h' : ∀ k, k ≤ fuel →
          normSq (orbit (mandelStep c) (mandelStep c z) k) ≠ e2 := by
        intro k hk
        rw [orbit_shift]
        exact h (k + 1) (by omega)
      have := ih (mandelStep c z) (j + 1) h'
      simpa [mandelStep] using this

/-- C5 amended: `mandelbrotIteration(cx, cy, maxIterations, escapeRadius)`
equals the `iterations` field of `MandelbrotFractal.iterate` on the same
point and parameters, PROVIDED the orbit of the point never satisfies
`|z|² = escapeRadius²` exactly within `maxIterations` steps.  (On that
boundary the two disagree — `mandelbrotIteration` stops, `iterate`
continues — see the counterexample.) -/
theorem claim5_implementations_agree_amended (cx cy e : ℚ) (maxIter : ℕ)
    (cfg : FractalConfig) (hmax : cfg.maxIterations = maxIter)
    (hr : cfg.escapeRadius.getD 2 = e)
    (horb : ∀ k, k ≤ maxIter → normSq (orbit (mandelStep ⟨cx, cy⟩) ⟨0, 0⟩ k) ≠ e * e) :
    mandelbrotIteration cx cy maxIter e =
      (MandelbrotFractal.iterate ⟨cx, cy⟩ cfg).iterations := by
  unfold mandelbrotIteration MandelbrotFractal.iterate
  rw [hr, hmax]
  have := mandelLoops_agree ⟨cx, cy⟩ (e * e) maxIter ⟨0, 0⟩ 0 horb
  simpa using this

/-- Witness for the amended C5 at `c = (3, 0)`, two iterations, radius 2:
the orbit `0, 3, 12` never has `|z|² = 4`, and the two implementations
agree. -/
theorem claim5_implementations_agree_amended_witness :
    mandelbrotIteration 3 0 2 2 = (MandelbrotFractal.iterate ⟨3, 0⟩ cfgC5ce).iterations :=
  claim5_implementations_agree_amended 3 0 2 2 cfgC5ce rfl rfl (by
    intro k hk
    interval_cases k <;> norm_num [orbit, mandelStep, normSq])

end Mandel

namespace Mandel

/-- `Math.round` keeps values of `[0, 255]` in `[0, 255]`. -/
theorem jsRound_range (q : ℚ) (h0 : 0 ≤ q) (h1 : q ≤ 255) :
    0 ≤ jsRound q ∧ jsRound q ≤ 255 := by
  unfold jsRound
  constructor
  · exact Int.le_floor.mpr (by push_cast; linarith)
  · have : ⌊q + 1 / 2⌋ < 256 := Int.floor_lt.mpr (by push_cast; linarith)
    omega

/-- Linear interpolation between two values of `[0, 255]` with a factor in
`[0, 1]` stays in `[0, 255]`. -/
theorem lerp_range (a b t : ℚ) (ha0 : 0 ≤ a) (ha : a ≤ 255) (hb0 : 0 ≤ b)
    (hb : b ≤ 255) (ht0 : 0 ≤ t) (ht1 : t ≤ 1) :
    0 ≤ a + (b - a) * t ∧ a + (b - a) * t ≤ 255 := by
  constructor <;> nlinarith

/-- `interpolateColor` of two byte-range colors with a factor in `[0, 1]` is
byte-range. -/
theorem interpolateColor_range (c1 c2 : RGBColor) (t : ℚ)
    (h1 : inByteRange c1) (h2 : inByteRange c2) (ht0 : 0 ≤ t) (ht1 : t ≤ 1) :
    inByteRange (interpolateColor c1 c2 t) := by
  obtain ⟨a1, a2, a3, a4, a5, a6⟩ := h1
  obtain ⟨b1, b2, b3, b4, b5, b6⟩ := h2
  unfold interpolateColor inByteRange
  refine ⟨?_, ?_, ?_, ?_, ?_, ?_⟩ <;>
    first
    | exact (jsRound_range _ (lerp_range _ _ t (by exact_mod_cast a1) (by exact_mod_cast a2)
        (by exact_mod_cast b1) (by exact_mod_cast b2) ht0 ht1).1
        (lerp_range _ _ t (by exact_mod_cast a1) (by exact_mod_cast a2)
          (by exact_mod_cast b1) (by exact_mod_cast b2) ht0 ht1).2).1
    | exact (jsRound_range _ (lerp_range _ _ t (by exact_mod_cast a3) (by exact_mod_cast a4)
        (by exact_mod_cast b3) (by exact_mod_cast b4) ht0 ht1).1
        (lerp_range _ _ t (by exact_mod_cast a3) (by exact_mod_cast a4)
          (by exact_mod_cast b3) (by exact_mod_cast b4) ht0 ht1).2).1
    | exact (jsRound_range _ (lerp_range _ _ t (by exact_mod_cast a5) (by exact_mod_cast a6)
        (by exact_mod_cast b5) (by exact_mod_cast b6) ht0 ht1).1
        (lerp_range _ _ t (by exact_mod_cast a5) (by exact_mod_cast a6)
          (by exact_mod_cast b5) (by exact_mod_cast b6) ht0 ht1).2).1
    | exact (jsRound_range _ (lerp_range _ _ t (by exact_mod_cast a1) (by exact_mod_cast a2)
        (by exact_mod_cast b1) (by exact_mod_cast b2) ht0 ht1).1
        (lerp_range _ _ t (by exact_mod_cast a1) (by exact_mod_cast a2)
          (by exact_mod_cast b1) (by exact_mod_cast b2) ht0 ht1).2).2
    | exact (jsRound_range _ (lerp_range _ _ t (by exact_mod_cast a3) (by exact_mod_cast a4)
        (by exact_mod_cast b3) (by exact_mod_cast b4) ht0 ht1).1
        (lerp_range _ _ t (by exact_mod_cast a3) (by exact_mod_cast a4)
          (by exact_mod_cast b3) (by exact_mod_cast b4) ht0 ht1).2).2
    | exact (jsRound_range _ (lerp_range _ _ t (by exact_mod_cast a5) (by exact_mod_cast a6)
        (by exact_mod_cast b5) (by exact_mod_cast b6) ht0 ht1).1
        (lerp_range _ _ t (by exact_mod_cast a5) (by exact_mod_cast a6)
          (by exact_mod_cast b5) (by exact_mod_cast b6) ht0 ht1).2).2

instance inByteRange.instDecidable (c : RGBColor) : Decidable (inByteRange c) := by
  unfold inByteRange
  infer_instance

/-- The byte-range property of `(0,0,0)`-defaulted indexing into a list of
byte-range colors. -/
theorem getD_inByteRange (cps : List RGBColor) (h : ∀ c ∈ cps, inByteRange c)
    (n : ℕ) : inByteRange (cps.getD n (0, 0, 0)) := by
  rcases lt_or_ge n cps.length with hn | hn
  · rw [List.getD_eq_getElem?_getD, List.getElem?_eq_getElem hn]
    exact h _ (List.getElem_mem hn)
  · rw [List.getD_eq_getElem?_getD, List.getElem?_eq_none hn]
    norm_num [inByteRange]

/-- Every sample of `generatePalette` over byte-range control points is
byte-range. -/
theorem generatePalette_range (cps : List RGBColor) (size : ℕ)
    (h : ∀ c ∈ cps, inByteRange c) :
    ∀ c ∈ generatePalette cps size, inByteRange c := by
  intro c hc
  unfold generatePalette at hc
  obtain ⟨i, _, hi⟩ := List.mem_map.mp hc
  subst hi
  unfold paletteSample
  split_ifs with hseg
  · rcases hlast : cps.getLast? with _ | c'
    · norm_num [inByteRange]
    · simpa using h _ (List.mem_of_getLast?_eq_some hlast)
  · apply interpolateColor_range _ _ _ (getD_inByteRange cps h _) (getD_inByteRange cps h _)
    · have := Int.floor_le (palettePosition cps size i)
      linarith
    · have := Int.lt_floor_add_one (palettePosition cps size i)
      linarith

/-- `generatePalette` produces exactly `size` samples. -/
theorem generatePalette_length (cps : List RGBColor) (size : ℕ) :
    (generatePalette cps size).length = size := by
  simp [generatePalette]

/-- Whatever the requested name, the palette `getColor` ends up using has
256 byte-range entries. -/
theorem palette_used_spec (name : String) :
    ((colorPalettes name).getD rainbowPalette).length = 256 ∧
    ∀ c ∈ (colorPalettes name).getD rainbowPalette, inByteRange c := by
  have hrb : ∀ c ∈ rainbowControl, inByteRange c := by decide
  have hfi : ∀ c ∈ fireControl, inByteRange c := by decide
  have hbl : ∀ c ∈ blueControl, inByteRange c := by decide
  have hgs : ∀ c ∈ grayscaleControl, inByteRange c := by decide
  have hpu : ∀ c ∈ purpleControl, inByteRange c := by decide
  have hsu : ∀ c ∈ sunsetControl, inByteRange c := by decide
  unfold colorPalettes rainbowPalette
  split_ifs <;>
    simp only [Option.getD_some, Option.getD_none] <;>
    exact ⟨generatePalette_length _ _, generatePalette_range _ _ (by assumption)⟩

end Mandel

namespace Mandel

/-- C8: for integer `iterations ≥ 0` and `maxIterations ≥ 0` and any palette
name, `getColor` returns black when `iterations >= maxIterations`, and
otherwise returns the entry of the used palette at index
`floor((iterations/maxIterations) * (paletteLength - 1))`; that index is in
range and the entry has every channel an integer in `[0, 255]`. -/
theorem claim8_getColor_spec (it maxIter : ℕ) (name : String) :
    (maxIter ≤ it → getColor it maxIter name = (0, 0, 0)) ∧
    (it < maxIter →
      getColor it maxIter name =
        ((colorPalettes name).getD rainbowPalette).getD
          ((⌊((it : ℚ) / (maxIter : ℚ)) *
            ((((colorPalettes name).getD rainbowPalette).length : ℚ) - 1)⌋).toNat) (0, 0, 0) ∧
      (⌊((it : ℚ) / (maxIter : ℚ)) *
          ((((colorPalettes name).getD rainbowPalette).length : ℚ) - 1)⌋).toNat <
        ((colorPalettes name).getD rainbowPalette).length ∧
      inByteRange (getColor it maxIter name)) := by
  obtain ⟨hlen, hrange⟩ := palette_used_spec name
  constructor
  · intro h
    unfold getColor
    rw [if_pos h]
  · intro h
    have hneg : ¬ (it ≥ maxIter) := by omega
    have hm0 : (0 : ℚ) < (maxIter : ℚ) := by
      have : 0 < maxIter := by omega
      exact_mod_cast this
    have hq0 : 0 ≤ (it : ℚ) / (maxIter : ℚ) := by positivity
    have hq1 : (it : ℚ) / (maxIter : ℚ) < 1 := by
      rw [div_lt_one hm0]
      exact_mod_cast h
    have hidx : (⌊((it : ℚ) / (maxIter : ℚ)) *
        ((((colorPalettes name).getD rainbowPalette).length : ℚ) - 1)⌋).toNat <
        ((colorPalettes name).getD rainbowPalette).length := by
      have hLq : ((((colorPalettes name).getD rainbowPalette).length : ℕ) : ℚ) = 256 := by
        rw [hlen]
        norm_num
      have hp : ((it : ℚ) / (maxIter : ℚ)) *
          ((((colorPalettes name).getD rainbowPalette).length : ℚ) - 1) < 255 := by
        rw [hLq]
        nlinarith
      have hfl : ⌊((it : ℚ) / (maxIter : ℚ)) *
          ((((colorPalettes name).getD rainbowPalette).length : ℚ) - 1)⌋ < 255 :=
        Int.floor_lt.mpr (by push_cast; linarith)
      omega
    refine ⟨?_, hidx, ?_⟩
    · unfold getColor
      rw [if_neg hneg]
    · unfold getColor
      rw [if_neg hneg]
      exact getD_inByteRange _ hrange _

/-- Witness for C8: at `maxIterations = 10`, iteration count 10 is black and
iteration count 3 yields a byte-range triple from the fire palette. -/
theorem claim8_getColor_spec_witness :
    getColor 10 10 "fire" = (0, 0, 0) ∧ inByteRange (getColor 3 10 "fire") :=
  ⟨(claim8_getColor_spec 10 10 "fire").1 (by omega),
   ((claim8_getColor_spec 3 10 "fire").2 (by omega)).2.2⟩

end Mandel

namespace Mandel

/-- `U8Array.set` preserves the size. -/
theorem U8Array.set_size (a : U8Array) (i : ℕ) (v : ℤ) : (a.set i v).size = a.size := by
  unfold U8Array.set
  split <;> rfl

/-- `U8Array.set` leaves other indices unchanged. -/
theorem U8Array.set_data_ne (a : U8Array) (i : ℕ) (v : ℤ) (j : ℕ) (h : j ≠ i) :
    (a.set i v).data j = a.data j := by
  unfold U8Array.set
  split
  · simp [h]
  · rfl

/-- `U8Array.set` stores the clamped value at an in-range index. -/
theorem U8Array.set_data_eq (a : U8Array) (i : ℕ) (v : ℤ) (h : i < a.size) :
    (a.set i v).data i = clampByte v := by
  unfold U8Array.set
  rw [if_pos h]
  simp

/-- Clamping 255 gives the byte 255. -/
theorem clampByte_255 : clampByte 255 = 255 := rfl

/-- `writeRGBA` preserves the size. -/
theorem writeRGBA_size (buf : U8Array) (idx : ℕ) (c : RGBColor) :
    (writeRGBA buf idx c).size = buf.size := by
  unfold writeRGBA
  rw [U8Array.set_size, U8Array.set_size, U8Array.set_size, U8Array.set_size]

/-- `writeRGBA` stores 255 in the alpha byte. -/
theorem writeRGBA_alpha (buf : U8Array) (idx : ℕ) (c : RGBColor)
    (h : idx + 3 < buf.size) :
    (writeRGBA buf idx c).data (idx + 3) = 255 := by
  unfold writeRGBA
  rw [U8Array.set_data_eq]
  · rfl
  · rw [U8Array.set_size, U8Array.set_size, U8Array.set_size]
    exact h

/-- `writeRGBA` leaves every index outside its four bytes unchanged. -/
theorem writeRGBA_data_ne (buf : U8Array) (idx : ℕ) (c : RGBColor) (j : ℕ)
    (h : ∀ k, k ≤ 3 → j ≠ idx + k) :
    (writeRGBA buf idx c).data j = buf.data j := by
  unfold writeRGBA
  rw [U8Array.set_data_ne _ _ _ _ (h 3 (by omega)),
    U8Array.set_data_ne _ _ _ _ (h 2 (by omega)),
    U8Array.set_data_ne _ _ _ _ (h 1 (by omega)),
    U8Array.set_data_ne _ _ _ _ (by simpa using h 0 (by omega))]

/-- A fold of size-preserving writes preserves the size. -/
theorem foldl_write_size {α : Type} (f : U8Array → α → U8Array)
    (hf : ∀ b x, (f b x).size = b.size) :
    ∀ (l : List α) (b : U8Array), (l.foldl f b).size = b.size := by
  intro l
  induction l with
  | nil => intro b; rfl
  | cons x xs ih =>
    intro b
    rw [List.foldl_cons, ih, hf]

/-- Behaviour of one row's pixel writes (at indices `(base + px) * 4 + k`):
the size is preserved, indices belonging to no written pixel are unchanged,
and (when the pixel list has no duplicates) the alpha byte of every written
in-range pixel ends as 255. -/
theorem rowWrites_spec (colorOf : ℕ → ℕ → RGBColor) (py base : ℕ) :
    ∀ (pxs : List ℕ) (buf : U8Array),
      ((pxs.foldl (fun b px => writeRGBA b ((base + px) * 4) (colorOf px py)) buf).size
        = buf.size) ∧
      (∀ j, (∀ px, px ∈ pxs → ∀ k, k ≤ 3 → j ≠ (base + px) * 4 + k) →
        (pxs.foldl (fun b px => writeRGBA b ((base + px) * 4) (colorOf px py)) buf).data j
          = buf.data j) ∧
      (pxs.Nodup → ∀ px, px ∈ pxs → (base + px) * 4 + 3 < buf.size →
        (pxs.foldl (fun b px => writeRGBA b ((base + px) * 4) (colorOf px py)) buf).data
          ((base + px) * 4 + 3) = 255) := by
  intro pxs
  induction pxs with
  | nil =>
    intro buf
    exact ⟨rfl, fun j _ => rfl, fun _ px hpx => absurd hpx (List.not_mem_nil px)⟩
  | cons px0 pxs ih =>
    intro buf
    refine ⟨?_, ?_, ?_⟩
    · rw [List.foldl_cons, (ih _).1, writeRGBA_size]
    · intro j hj
      rw [List.foldl_cons,
        (ih _).2.1 j (fun px hpx k hk => hj px (List.mem_cons_of_mem _ hpx) k hk),
        writeRGBA_data_ne _ _ _ _ (fun k hk => hj px0 (List.mem_cons_self _ _) k hk)]
    · intro hnd px hpx hlt
      rw [List.foldl_cons]
      rcases List.mem_cons.mp hpx with rfl | hmem
      · have hne : px ∉ pxs := (List.nodup_cons.mp hnd).1
        rw [(ih _).2.1 _ ?_]
        · exact writeRGBA_alpha _ _ _ hlt
        · intro px' hpx' k hk
          have hpp : px' ≠ px := fun he => hne (he ▸ hpx')
          omega
      · exact (ih _).2.2 (List.nodup_cons.mp hnd).2 px hmem
          (by rw [writeRGBA_size]; exact hlt)

/-- Strict ordering of pixel positions across distinct rows. -/
theorem row_lt_of_lt (py py' px w : ℕ) (h : py < py') (hpx : px < w) :
    py * w + px < py' * w :=
  calc py * w + px < py * w + w := Nat.add_lt_add_left hpx _
    _ = (py + 1) * w := (Nat.succ_mul py w).symm
    _ ≤ py' * w := Nat.mul_le_mul_right _ h

/-- Pixel positions of distinct rows are distinct. -/
theorem row_pixel_ne (py py' px px' w : ℕ) (hpy : py ≠ py') (hpx : px < w)
    (hpx' : px' < w) : py * w + px ≠ py' * w + px' := by
  rcases Nat.lt_or_ge py py' with h | h
  · have h1 := row_lt_of_lt py py' px w h hpx
    have h2 : py' * w ≤ py' * w + px' := Nat.le_add_right _ _
    omega
  · have hlt : py' < py := by omega
    have h1 := row_lt_of_lt py' py px' w hlt hpx'
    have h2 : py * w ≤ py * w + px := Nat.le_add_right _ _
    omega

/-- Byte blocks of distinct pixels are disjoint. -/
theorem block_ne (a b k : ℕ) (hab : a ≠ b) (hk : k ≤ 3) :
    a * 4 + 3 ≠ b * 4 + k := by
  omega

end Mandel

namespace Mandel

/-- `writePixelRow` preserves the size. -/
theorem writePixelRow_size (colorOf : ℕ → ℕ → RGBColor) (w : ℕ) (buf : U8Array)
    (py : ℕ) : (writePixelRow colorOf w buf py).size = buf.size :=
  (rowWrites_spec colorOf py (py * w) (List.range w) buf).1

/-- `writePixelRow` leaves indices of other rows unchanged. -/
theorem writePixelRow_data_ne (colorOf : ℕ → ℕ → RGBColor) (w : ℕ) (buf : U8Array)
    (py j : ℕ) (hj : ∀ px, px < w → ∀ k, k ≤ 3 → j ≠ (py * w + px) * 4 + k) :
    (writePixelRow colorOf w buf py).data j = buf.data j :=
  (rowWrites_spec colorOf py (py * w) (List.range w) buf).2.1 j
    (fun px hpx k hk => hj px (List.mem_range.mp hpx) k hk)

/-- `writePixelRow` ends with alpha 255 on every in-range pixel of its row. -/
theorem writePixelRow_alpha (colorOf : ℕ → ℕ → RGBColor) (w : ℕ) (buf : U8Array)
    (py px : ℕ) (hpx : px < w) (hlt : (py * w + px) * 4 + 3 < buf.size) :
    (writePixelRow colorOf w buf py).data ((py * w + px) * 4 + 3) = 255 :=
  (rowWrites_spec colorOf py (py * w) (List.range w) buf).2.2 (List.nodup_range w) px
    (List.mem_range.mpr hpx) hlt

/-- Behaviour of a fold of row writes over a duplicate-free list of rows:
size preserved, untouched indices unchanged, and the alpha byte of every
written in-range pixel ends as 255. -/
theorem rowsWrites_spec (colorOf : ℕ → ℕ → RGBColor) (w : ℕ) :
    ∀ (rows : List ℕ) (buf : U8Array),
      ((rows.foldl (writePixelRow colorOf w) buf).size = buf.size) ∧
      (∀ j, (∀ py', py' ∈ rows → ∀ px', px' < w → ∀ k, k ≤ 3 →
          j ≠ (py' * w + px') * 4 + k) →
        (rows.foldl (writePixelRow colorOf w) buf).data j = buf.data j) ∧
      (rows.Nodup → ∀ py, py ∈ rows → ∀ px, px < w →
        (py * w + px) * 4 + 3 < buf.size →
        (rows.foldl (writePixelRow colorOf w) buf).data ((py * w + px) * 4 + 3) = 255) := by
  intro rows
  induction rows with
  | nil =>
    intro buf
    exact ⟨rfl, fun j _ => rfl, fun _ py hpy => absurd hpy (List.not_mem_nil py)⟩
  | cons py0 rows ih =>
    intro buf
    refine ⟨?_, ?_, ?_⟩
    · rw [List.foldl_cons, (ih _).1, writePixelRow_size]
    · intro j hj
      rw [List.foldl_cons,
        (ih _).2.1 j (fun py' hpy' => hj py' (List.mem_cons_of_mem _ hpy')),
        writePixelRow_data_ne _ _ _ _ _
          (fun px hpx k hk => hj py0 (List.mem_cons_self _ _) px hpx k hk)]
    · intro hnd py hpy px hpx hlt
      rw [List.foldl_cons]
      rcases List.mem_cons.mp hpy with rfl | hmem
      · have hne : py ∉ rows := (List.nodup_cons.mp hnd).1
        rw [(ih _).2.1 _ ?_]
        · exact writePixelRow_alpha _ _ _ _ _ hpx hlt
        · intro py' hpy' px' hpx' k hk
          exact block_ne _ _ k
            (row_pixel_ne py py' px px' w (fun he => hne (he ▸ hpy')) hpx hpx') hk
      · exact (ih _).2.2 (List.nodup_cons.mp hnd).2 py hmem px hpx
          (by rw [writePixelRow_size]; exact hlt)

/-- Eliminating the running `pixelIndex` counter of the inner pixel loop of
`generateMandelbrotData`: starting at counter `j` it writes at `j + 4*px`. -/
theorem innerCounter (colorOf : ℕ → ℕ → RGBColor) (py : ℕ) :
    ∀ (n : ℕ) (buf : U8Array) (j : ℕ),
      (List.range n).foldl
        (fun st2 px => (writeRGBA st2.1 st2.2 (colorOf px py), st2.2 + 4)) (buf, j)
      = ((List.range n).foldl (fun b px => writeRGBA b (j + 4 * px) (colorOf px py)) buf,
         j + 4 * n) := by
  intro n
  induction n with
  | zero => intro buf j; simp
  | succ n ih =>
    intro buf j
    rw [List.range_succ, List.foldl_append, List.foldl_append, ih]
    simp only [List.foldl_cons, List.foldl_nil, Prod.mk.injEq]
    refine ⟨trivial, ?_⟩
    omega

/-- The row-major counter version of `generateMandelbrotData` coincides with
the fold of `writePixelRow` over the rows (the counter of row `py` starts at
`4*width*py = (py*width + 0)*4`). -/
theorem generateMandelbrotData_rows (cfg : MandelbrotConfig) :
    generateMandelbrotData cfg =
      (List.range cfg.height).foldl (writePixelRow (pixelColorM cfg) cfg.width)
        (U8Array.mk0 (cfg.width * cfg.height * 4)) := by
  have key : ∀ (m : ℕ) (buf : U8Array),
      (List.range m).foldl
        (fun st py => (List.range cfg.width).foldl
          (fun st2 px => (writeRGBA st2.1 st2.2 (pixelColorM cfg px py), st2.2 + 4)) st)
        (buf, 0)
      = ((List.range m).foldl (writePixelRow (pixelColorM cfg) cfg.width) buf,
         4 * cfg.width * m) := by
    intro m
    induction m with
    | zero => intro buf; simp
    | succ m ih =>
      intro buf
      rw [List.range_succ, List.foldl_append, List.foldl_append, ih]
      simp only [List.foldl_cons, List.foldl_nil]
      rw [innerCounter]
      simp only [Prod.mk.injEq]
      constructor
      · unfold writePixelRow
        apply List.foldl_ext
        intro b px hpx
        have h4 : 4 * cfg.width * m + 4 * px = (m * cfg.width + px) * 4 := by ring
        rw [h4]
      · ring
  unfold generateMandelbrotData
  rw [key]

end Mandel

namespace Mandel

/-- Byte index bound inside a buffer of `B` pixels. -/
theorem idx_lt_of_pixel_lt (a B : ℕ) (h : a < B) : a * 4 + 3 < B * 4 := by
  omega

/-- C10: both generation pipelines produce a buffer of exactly
`width*height*4` bytes, and the alpha byte at `(row*width+col)*4 + 3` is 255
for every pixel (for `generateMandelbrotData` of the standalone pipeline and
for `BaseFractal.generateData` with any algorithm hooks). -/
theorem claim10_buffer_invariants (cfg : MandelbrotConfig) (cfg' : FractalConfig)
    (algIterate : Complex → FractalConfig → FractalResult)
    (algColor : FractalResult → FractalConfig → RGBColor)
    (_hw : 0 < cfg.width) (_hh : 0 < cfg.height)
    (_hw' : 0 < cfg'.width) (_hh' : 0 < cfg'.height) :
    (generateMandelbrotData cfg).size = cfg.width * cfg.height * 4 ∧
    (∀ row col, row < cfg.height → col < cfg.width →
      (generateMandelbrotData cfg).data ((row * cfg.width + col) * 4 + 3) = 255) ∧
    (BaseFractal.generateData algIterate algColor cfg').size =
      cfg'.width * cfg'.height * 4 ∧
    (∀ row col, row < cfg'.height → col < cfg'.width →
      (BaseFractal.generateData algIterate algColor cfg').data
        ((row * cfg'.width + col) * 4 + 3) = 255) := by
  have hsz : cfg.width * cfg.height * 4 = cfg.height * cfg.width * 4 := by
    rw [Nat.mul_comm cfg.width cfg.height]
  have hsz' : cfg'.width * cfg'.height * 4 = cfg'.height * cfg'.width * 4 := by
    rw [Nat.mul_comm cfg'.width cfg'.height]
  refine ⟨?_, ?_, ?_, ?_⟩
  · rw [generateMandelbrotData_rows]
    exact (rowsWrites_spec (pixelColorM cfg) cfg.width (List.range cfg.height) _).1
  · intro row col hrow hcol
    rw [generateMandelbrotData_rows]
    apply (rowsWrites_spec (pixelColorM cfg) cfg.width (List.range cfg.height) _).2.2
      (List.nodup_range _) row (List.mem_range.mpr hrow) col hcol
    show (row * cfg.width + col) * 4 + 3 < cfg.width * cfg.height * 4
    rw [hsz]
    exact idx_lt_of_pixel_lt _ _ (row_lt_of_lt row cfg.height col cfg.width hrow hcol)
  · unfold BaseFractal.generateData
    exact (rowsWrites_spec (basePixelColor algIterate algColor cfg') cfg'.width
      (List.range cfg'.height) _).1
  · intro row col hrow hcol
    unfold BaseFractal.generateData
    apply (rowsWrites_spec (basePixelColor algIterate algColor cfg') cfg'.width
      (List.range cfg'.height) _).2.2
      (List.nodup_range _) row (List.mem_range.mpr hrow) col hcol
    show (row * cfg'.width + col) * 4 + 3 < cfg'.width * cfg'.height * 4
    rw [hsz']
    exact idx_lt_of_pixel_lt _ _ (row_lt_of_lt row cfg'.height col cfg'.width hrow hcol)

/-- Witness for C10 on 1×1 configurations with the Mandelbrot hooks. -/
theorem claim10_buffer_invariants_witness :
    (generateMandelbrotData cfgW10).size = cfgW10.width * cfgW10.height * 4 ∧
    (BaseFractal.generateData MandelbrotFractal.iterate MandelbrotFractal.getColorHook
      cfgW10F).data ((0 * cfgW10F.width + 0) * 4 + 3) = 255 := by
  have h := claim10_buffer_invariants cfgW10 cfgW10F MandelbrotFractal.iterate
    MandelbrotFractal.getColorHook (by decide) (by decide) (by decide) (by decide)
  exact ⟨h.1, h.2.2.2 0 0 (by decide) (by decide)⟩

end Mandel

namespace Mandel

/-- `workerCount` chunks of `ceil(height/workerCount)` rows cover at least
`height` rows. -/
theorem height_le_workers_mul_rpw (h N : ℕ) (hN : 1 ≤ N) :
    h ≤ N * rowsPerWorkerOf h N := by
  unfold rowsPerWorkerOf
  have e := Nat.div_add_mod (h + N - 1) N
  have hr : (h + N - 1) % N < N := Nat.mod_lt _ (by omega)
  obtain ⟨q, hq⟩ : ∃ q, (h + N - 1) / N = q := ⟨_, rfl⟩
  rw [hq] at e ⊢
  obtain ⟨p, hp⟩ : ∃ p, N * q = p := ⟨_, rfl⟩
  rw [hp] at e ⊢
  obtain ⟨r, hrr⟩ : ∃ r, (h + N - 1) % N = r := ⟨_, rfl⟩
  rw [hrr] at e hr
  omega

/-- Appending the next truncated chunk interval to the rows covered so far. -/
theorem range'_chunk_append (a b h : ℕ) (hab : a ≤ b) :
    List.range' 0 (min a h) ++ List.range' a (min b h - a) =
      List.range' 0 (min b h) := by
  rcases le_or_lt a h with hle | hgt
  · rw [Nat.min_eq_left hle]
    have e := List.range'_append_1 0 a (min b h - a)
    rw [Nat.zero_add] at e
    rw [e]
    congr 1
    omega
  · have h1 : min a h = h := Nat.min_eq_right (le_of_lt hgt)
    have h2 : min b h = h := Nat.min_eq_right (by omega)
    rw [h1, h2]
    have h3 : h - a = 0 := by omega
    rw [h3]
    simp

/-- The concatenation of the first `k` chunk row-ranges is exactly the rows
`0, …, min(k·rowsPerWorker, height) - 1`. -/
theorem chunk_flatten_upto (h N : ℕ) :
    ∀ k, ((List.range k).map (chunkRows h N)).flatten =
      List.range' 0 (min (k * rowsPerWorkerOf h N) h) := by
  intro k
  induction k with
  | zero => simp
  | succ k ih =>
    rw [List.range_succ, List.map_append, List.flatten_append, ih]
    simp only [List.map_cons, List.map_nil, List.flatten_cons, List.flatten_nil,
      List.append_nil, chunkRows]
    exact range'_chunk_append _ _ _ (Nat.mul_le_mul_right _ (by omega))

/-- All `workerCount ≥ 1` chunk row-ranges together are exactly the rows
`0, …, height-1`, in order. -/
theorem chunk_flatten (h N : ℕ) (hN : 1 ≤ N) :
    ((List.range N).map (chunkRows h N)).flatten = List.range h := by
  rw [chunk_flatten_upto h N N,
    Nat.min_eq_right (height_le_workers_mul_rpw h N hN), List.range_eq_range']

/-- C4: for every configuration and `workerCount ≥ 1`, the optimized path
(the merge of its per-chunk row computations, which the single-threaded
event queue runs in registration order) produces a buffer equal to the
synchronous `generateMandelbrotData`, and distinct chunks write disjoint
row ranges. -/
theorem claim4_optimized_equals_sync (cfg : MandelbrotConfig) (workerCount : ℕ)
    (hN : 1 ≤ workerCount) :
    generateMandelbrotDataOptimized cfg workerCount = generateMandelbrotData cfg ∧
    (∀ w1 w2, w1 < w2 → w2 < workerCount →
      ∀ r, r ∈ chunkRows cfg.height workerCount w1 →
        r ∉ chunkRows cfg.height workerCount w2) := by
  constructor
  · rw [generateMandelbrotData_rows]
    unfold generateMandelbrotDataOptimized
    rw [← chunk_flatten cfg.height workerCount hN, List.foldl_flatten, List.foldl_map]
  · intro w1 w2 h12 _h2N r hr1 hr2
    simp only [chunkRows, List.mem_range'_1] at hr1 hr2
    have hab : w1 * rowsPerWorkerOf cfg.height workerCount ≤
        (w1 + 1) * rowsPerWorkerOf cfg.height workerCount :=
      Nat.mul_le_mul_right _ (by omega)
    have hbc : (w1 + 1) * rowsPerWorkerOf cfg.height workerCount ≤
        w2 * rowsPerWorkerOf cfg.height workerCount :=
      Nat.mul_le_mul_right _ (by omega)
    generalize hA : w1 * rowsPerWorkerOf cfg.height workerCount = a at hr1 hab
    generalize hB : (w1 + 1) * rowsPerWorkerOf cfg.height workerCount = b at hr1 hab hbc
    generalize hC : w2 * rowsPerWorkerOf cfg.height workerCount = c at hr2 hbc
    omega

/-- Witness for C4: 1×2 image, two chunks. -/
theorem claim4_optimized_equals_sync_witness :
    generateMandelbrotDataOptimized cfgW4 2 = generateMandelbrotData cfgW4 :=
  (claim4_optimized_equals_sync cfgW4 2 (by omega)).1

end Mandel
